import Mathlib

/-!
Verification of the reaction-gating engine (StarsControl), the statistics
module helpers and the HouseRoles database controller of the dnserv bot.

The TypeScript source is shallowly embedded: asynchronous functions that are
awaited sequentially become pure Lean functions; JavaScript truthiness of the
union type string-or-boolean is made explicit through the `RVal` type; object
insertion order (used by the compiled pipeline) becomes list order; external
utilities that are not part of the repository (message-sender resolution,
time difference) are modelled from the spec and documented as such.
-/

namespace DnServ

/-- A JavaScript value of union type string-or-boolean, the result type of the
gating predicates (a string carries a human readable reason). -/
inductive RVal where
  | str (s : String)
  | bool (b : Bool)
deriving DecidableEq, Repr

/-- JavaScript truthiness on the string-or-boolean union: a non-empty string or
the boolean true. -/
def RVal.truthy : RVal → Bool
  | .str s => s ≠ ""
  | .bool b => b

/-- A user account as seen by the gating code: identifier, current display
handle and the automated-account flag. -/
structure Sender where
  id : String
  username : String
  bot : Bool
deriving DecidableEq, Repr

/-- The host message of a reaction, with the metadata the disqualification
rules consult.

The fields `sender` and `member` model the external utilities
`getMessageMemberOrAuthor` and `getMessageMember` (they live outside this
repository). Modelled from the spec: they resolve the conventional sender
account of the message; messages posted via external integrations
(webhook-style) have no conventional account, so both resolve to `none` for
them, and `webhookID` carries the integration identifier. -/
structure Msg where
  guildId : Option String
  channelId : String
  content : String
  /-- Seconds elapsed since the message was sent, as computed by the external
  `timeDiff(Date.now(), msg.createdAt, "s")` utility; modelled from the spec
  as a non-negative rational. -/
  secondsSinceSent : ℚ
  sender : Option Sender
  member : Option Sender
  webhookID : Option String
deriving DecidableEq, Repr

/-- A reaction delivered by the platform: emoji name plus host message. -/
structure Reaction where
  emojiName : String
  message : Msg
deriving DecidableEq, Repr

/-- The ephemeral event consumed by the evaluator (interface IAddedReaction). -/
structure IAddedReaction where
  reaction : Reaction
  user : Sender
deriving DecidableEq, Repr

/-- Content condition position tag (type ContentDisqualifyCondition, first
component of the tuple). -/
inductive ContentPos where
  | equal
  | starts
  | ends
  | includes
deriving DecidableEq, Repr

/-- interface IMessageDisqualification: every field independently optional. -/
structure IMessageDisqualification where
  authors : Option (List String) := none
  channels : Option (List String) := none
  content : Option (ContentPos × String) := none
  aged : Option ℚ := none
  reason : Option String := none
deriving DecidableEq, Repr

/-- interface IStarControlSettings after merging with the defaults in
`_initConfig` (so `selfStarring` and `starEmoji` are present; the two list
sections stay optional, absence removes the corresponding pipeline step). -/
structure IStarControlSettings where
  guildId : String
  badStars : Option (List IMessageDisqualification) := none
  selfStarring : Bool := true
  starEmoji : String := "⭐"
  blockedStarrers : Option (List String) := none

/-! ## The any-of combinator (function calledAnyOf)

The source iterates the own enumerable string keys of an object, which
JavaScript enumerates in insertion order; the embedding therefore takes an
ordered association list. Each checker is an async function awaited in turn,
embedded as a pure function. The optional `how` argument selects the
positivity test; absent, JavaScript truthiness of the result is used. -/

/-- function calledAnyOf: runs the named checks in order and returns the first
positive (name, result) pair, or nothing when every check is negative. -/
def calledAnyOf {T : Type} (functions : List (String × (T → RVal)))
    (how : Option (RVal → Bool)) (t : T) : Option (String × RVal) :=
  match functions with
  | [] => none
  | (name, func) :: rest =>
    let res := func t
    -- if (!how && res) return [name, res]; else if (how && how(res)) ...
    if (match how with | none => res.truthy | some h => h res) then
      some (name, res)
    else
      calledAnyOf rest how t

/-- Call-count instrumentation of the same loop: the names of the checkers the
loop invokes, in order. A checker is invoked exactly when every earlier
checker was negative. -/
def calledAnyOfCalls {T : Type} (functions : List (String × (T → RVal)))
    (how : Option (RVal → Bool)) (t : T) : List String :=
  match functions with
  | [] => []
  | (name, func) :: rest =>
    let res := func t
    if (match how with | none => res.truthy | some h => h res) then
      [name]
    else
      name :: calledAnyOfCalls rest how t

/-! ## String utilities

The source uses the text utilities of the host framework (outside this
repository) and JavaScript string builtins; both have the usual prefix,
suffix, slice and substring semantics, embedded here on character lists. -/

/-- The text.startsWith utility (JS String.prototype.startsWith semantics). -/
def strStartsWith (s pre : String) : Bool :=
  pre.data.isPrefixOf s.data

/-- The text.endsWith utility (JS String.prototype.endsWith semantics). -/
def strEndsWith (s post : String) : Bool :=
  post.data.isSuffixOf s.data

/-- JS String.prototype.slice(n): the string without its first n characters. -/
def strSlice (s : String) (n : ℕ) : String :=
  ⟨s.data.drop n⟩

/-! ## Content matching (StarsControl._contentMatch) -/

/-- Substring search on character lists, embedding the JavaScript
`String.prototype.includes` used by the "includes" content condition. -/
def strIncludesAux (sub : List Char) : List Char → Bool
  | [] => sub.isEmpty
  | c :: rest => sub.isPrefixOf (c :: rest) || strIncludesAux sub rest

/-- The call `content.includes(m)` of the source. -/
def strIncludes (content m : String) : Bool :=
  strIncludesAux m.data content.data

/-- StarsControl._contentMatch: case-sensitive equality, substring,
starts-with or ends-with test against the message content. -/
def _contentMatch (content : String) (cond : ContentPos × String) : Bool :=
  let pos := cond.1
  let m := cond.2
  (pos == ContentPos.equal && content == m) ||
  (pos == ContentPos.includes && strIncludes content m) ||
  (pos == ContentPos.starts && strStartsWith content m) ||
  (pos == ContentPos.ends && strEndsWith content m)

/-- StarsControl._minutesSinceSent: the external timeDiff utility yields the
seconds since the message was sent, divided by 60. -/
def _minutesSinceSent (msg : Msg) : ℚ :=
  msg.secondsSinceSent / 60

/-! ## Author matching (StarsControl._authoredBy) -/

/-- StarsControl._authoredBy: does the message sender satisfy any entry of the
authors list. The sender is the result of getMessageMemberOrAuthor (the
`member.user` unwrapping of the source is already folded into `Msg.sender`).
The comparison `msg.webhookID === hookId` is strict string equality, false
when the message has no integration identifier; the truthiness test
`if (msg.webhookID)` additionally rejects the empty string. -/
def _authoredBy (msg : Msg) : List String → Bool
  | [] => false
  | author :: rest =>
    if author = "$bots" then
      (match msg.sender with
       | some s => s.bot
       | none => false) || _authoredBy msg rest
    else if author = "$hooks" then
      (match msg.webhookID with
       | some w => w ≠ ""
       | none => false) || _authoredBy msg rest
    else if strStartsWith author "$hook:" then
      (msg.webhookID == some (strSlice author "$hook:".length)) || _authoredBy msg rest
    else
      (match msg.sender with
       | some s => s.id == author
       | none => false) || _authoredBy msg rest

/-! ## Rule matching (StarsControl._isDisqualified, _handleDisqualify) -/

/-- StarsControl._isDisqualified: the optional fields are tested in the fixed
order aged, channels, authors, content, each returning false early when its
condition fails. -/
def _isDisqualified (reaction : Reaction) (disqual : IMessageDisqualification) : Bool :=
  let msg := reaction.message
  -- if (aged != null) { if (minsSince < aged) return false; }
  if (match disqual.aged with
      | some aged => decide (_minutesSinceSent msg < aged)
      | none => false) then false
  -- if (channels) { if (!channels.includes(msg.channel.id)) return false; }
  else if (match disqual.channels with
      | some channels => !channels.contains msg.channelId
      | none => false) then false
  -- if (authors) { if (!(await _authoredBy(msg, authors))) return false; }
  else if (match disqual.authors with
      | some authors => !_authoredBy msg authors
      | none => false) then false
  else
    -- if (content) { const isMatches = StarsControl._contentMatch(msg.content, content);
    --               if (!isMatches) return false; }
    -- The source calls the async _contentMatch WITHOUT await, so isMatches
    -- holds a Promise object, which JavaScript treats as truthy: the guard
    -- can never return false, and the content condition is ignored.
    true

/-- The JavaScript expression `disqual.reason || true`: the reason string when
it is truthy (non-empty), the boolean true otherwise. -/
def reasonOrTrue : Option String → RVal
  | some r => if r = "" then RVal.bool true else RVal.str r
  | none => RVal.bool true

/-- The loop of StarsControl._handleDisqualify over the configured rules. -/
def _handleDisqualifyLoop (reaction : Reaction) :
    List IMessageDisqualification → RVal
  | [] => RVal.bool false
  | disqual :: rest =>
    if _isDisqualified reaction disqual then reasonOrTrue disqual.reason
    else _handleDisqualifyLoop reaction rest

/-- StarsControl._handleDisqualify: false when no badStars section is
configured, otherwise the first matching rule decides. -/
def _handleDisqualify (settings : IStarControlSettings)
    (toCheck : IAddedReaction) : RVal :=
  match settings.badStars with
  | none => RVal.bool false
  | some disquals => _handleDisqualifyLoop toCheck.reaction disquals

/-! ## Blocked starrers (StarsControl._starredBy, _handleBlockedStarrers)

The `$username_reg:` branch calls `regExp(reg).test(user.username)`; the
memoizing cache is verified separately (`regExp` below) and returns a
behaviorally identical compiled pattern on every call, so the matcher itself
is abstracted as the function parameter `test`. -/

/-- StarsControl._starredBy: does the acting user satisfy any starrer rule. -/
def _starredBy (test : String → String → Bool) (user : Sender) :
    List String → Bool
  | [] => false
  | starrer :: rest =>
    if starrer = "$bots" then
      user.bot || _starredBy test user rest
    else if strStartsWith starrer "$username:" then
      -- const username = starrer.slice("$username".length);
      -- the slice length is that of "$username" (9 characters), not of
      -- "$username:", so the extracted value keeps the leading colon
      (user.username == strSlice starrer "$username".length) || _starredBy test user rest
    else if strStartsWith starrer "$username_reg:" then
      test (strSlice starrer "$username_reg:".length) user.username
        || _starredBy test user rest
    else
      (user.id == starrer) || _starredBy test user rest

/-- StarsControl._handleBlockedStarrers. -/
def _handleBlockedStarrers (test : String → String → Bool)
    (settings : IStarControlSettings) (toCheck : IAddedReaction) : RVal :=
  match settings.blockedStarrers with
  | none => RVal.bool false
  | some blockedStarrers =>
    RVal.bool (_starredBy test toCheck.user blockedStarrers)

/-- StarsControl._handleSelfStar: disqualifies when self starring control is
enabled and the resolved message poster equals the acting user; an
unresolvable poster never disqualifies. -/
def _handleSelfStar (settings : IStarControlSettings)
    (toCheck : IAddedReaction) : RVal :=
  if !settings.selfStarring then RVal.bool false
  else
    match toCheck.reaction.message.member with
    | none => RVal.bool false
    | some poster => RVal.bool (poster == toCheck.user)

/-! ## Pipeline compilation (StarsControl.init)

The source fills a fresh object with up to three named steps and hands it to
calledAnyOf; string keys of a JavaScript object enumerate in insertion order,
so the embedding builds the association list in the same order. A section
gates its step by truthiness: an absent list removes the step, while a
present but empty list keeps it (arrays are truthy); the selfStarring flag
keeps its step only when true. -/

/-- The ordered steps compiled by StarsControl.init. -/
def disqualificationSteps (test : String → String → Bool)
    (settings : IStarControlSettings) :
    List (String × (IAddedReaction → RVal)) :=
  (match settings.blockedStarrers with
   | some _ => [("USER-BLOCK", fun toCheck => _handleBlockedStarrers test settings toCheck)]
   | none => [])
  ++ (match settings.badStars with
   | some _ => [("FILTER", fun toCheck => _handleDisqualify settings toCheck)]
   | none => [])
  ++ (if settings.selfStarring then
        [("SELF-STAR", fun toCheck => _handleSelfStar settings toCheck)]
      else [])

/-! ## Regex cache (function regExp, REGEX_CACHE)

The module-level REGEX_CACHE maps a pattern source string to the compiled
RegExp object built for it. Object identity of compiled patterns is made
observable in the embedding by tagging every compilation with a fresh serial
number: two results with equal serials are the very same object, results with
different serials come from distinct `new RegExp(...)` calls. The cache is
threaded explicitly as state. -/

/-- A compiled RegExp object: its source string and the serial number of the
compilation that created it (the identity tag). -/
structure RegExpObj where
  source : String
  compileId : ℕ
deriving DecidableEq, Repr

/-- The module-level REGEX_CACHE together with the next compilation serial. -/
structure RegexCacheState where
  entries : List (String × RegExpObj)
  nextId : ℕ
deriving DecidableEq, Repr

/-- REGEX_CACHE[str] lookup. -/
def RegexCacheState.lookup (cache : RegexCacheState) (str : String) :
    Option RegExpObj :=
  cache.entries.lookup str

/-- function regExp: return the cached compiled pattern when present
(a RegExp object is always truthy), otherwise compile, store and return. -/
def regExp (str : String) (cache : RegexCacheState) :
    RegExpObj × RegexCacheState :=
  match cache.lookup str with
  | some cached => (cached, cache)
  | none =>
    let compiled : RegExpObj := ⟨str, cache.nextId⟩
    (compiled, ⟨(str, compiled) :: cache.entries, cache.nextId + 1⟩)

/-! ## Event entry point (StarsControl._handleReactionAdding)

Side effects are made observable as an action trace. Warning delivery is the
only fallible effect relevant here (`user.send` rejects when the user cannot
be messaged); the boolean oracle `sendOk` decides it, and the try/catch of
the source becomes a match on the Except value. -/

/-- The observable side effects of the entry point. -/
inductive Action where
  | logDisallow (stepName : String)
  | removeReaction
  | sentReasonedWarning (stepName : String) (reason : String)
  | sentWarning (stepName : String)
  | loggedWarnFailure
  | logNotCompiled
deriving DecidableEq, Repr

/-- The body of the try block: look at disqualReasons, send the reasoned
warning when the detail is a string, the plain warning otherwise; delivery
fails when the user cannot be messaged. -/
def trySendWarning (sendOk : Bool) (autoReason : String) (reason : RVal) :
    Except Unit Action :=
  if !sendOk then Except.error ()
  else
    match reason with
    | RVal.str r => Except.ok (Action.sentReasonedWarning autoReason r)
    | RVal.bool _ => Except.ok (Action.sentWarning autoReason)

/-- StarsControl._handleReactionAdding: filter to the configured guild and
emoji, run the compiled disqualification process, and on rejection log,
retract the reaction and attempt the warning, swallowing a delivery failure
(the catch block only logs). Returns the action trace and the boolean result
of the handler. -/
def _handleReactionAdding (settings : IStarControlSettings)
    (process : Option (IAddedReaction → Option (String × RVal)))
    (sendOk : Bool) (reaction : Reaction) (user : Sender) :
    List Action × Bool :=
  let msg := reaction.message
  match msg.guildId with
  | none => ([], false)
  | some gid =>
    if gid ≠ settings.guildId then ([], false)
    else if reaction.emojiName ≠ settings.starEmoji then ([], false)
    else
      match process with
      | none => ([Action.logNotCompiled], false)
      | some disqualProcess =>
        match disqualProcess ⟨reaction, user⟩ with
        | none => ([], false)
        | some (autoReason, reason) =>
          ([Action.logDisallow autoReason, Action.removeReaction] ++
            (match trySendWarning sendOk autoReason reason with
             | Except.ok a => [a]
             | Except.error _ => [Action.loggedWarnFailure]), true)

/-! ## HouseRoles database controller (HouseRolesDBController)

The knex-backed table is modelled as the list of its rows in scan order;
`.where({guildId, memberId}).first()` becomes a find over that list. The
symbol-keyed private fields become ordinary structure fields. -/

/-- A row of the houseRoles table. -/
structure HouseRecord where
  guildId : String
  memberId : String
  flags : Int
  when : Int
deriving DecidableEq, Repr

/-- The member key data used by the controller. -/
structure Member where
  guildId : String
  id : String
deriving DecidableEq, Repr

/-- HouseRolesDBController.getLocalKey. -/
def getLocalKey (member : Member) : String :=
  member.guildId ++ ":" ++ member.id

/-- The controller state: local cache, database rows and the init flag. -/
structure HouseRolesDBController where
  localCache : List (String × HouseRecord)
  db : List HouseRecord
  initComplete : Bool
deriving DecidableEq, Repr

/-- The database query: where guildId and memberId match, take the first row. -/
def dbFirst (db : List HouseRecord) (member : Member) : Option HouseRecord :=
  db.find? (fun r => r.guildId == member.guildId && r.memberId == member.id)

/-- HouseRolesDBController.getRecord: serve a cache hit when useCache is set;
otherwise query the database. A found row is stored into the local cache and
the function then falls off the end, so the row itself is NOT returned — the
JavaScript function yields undefined on every path that reached the database.
The mustBeInitialized guard becomes the Except error. -/
def getRecord (ctrl : HouseRolesDBController) (member : Member)
    (useCache : Bool) :
    Except String (Option HouseRecord × HouseRolesDBController) :=
  if !ctrl.initComplete then Except.error "Controller must be initialized first"
  else
    let localKey := getLocalKey member
    -- const localValue = useCache && this[LOCAL_CACHE][localKey];
    let localValue := if useCache then ctrl.localCache.lookup localKey else none
    match localValue with
    | some v => Except.ok (some v, ctrl)
    | none =>
      match dbFirst ctrl.db member with
      | none => Except.ok (none, ctrl)
      | some remoteValue =>
        -- this[LOCAL_CACHE][localKey] = remoteValue;  (no return statement)
        Except.ok (none,
          { ctrl with localCache := (localKey, remoteValue) :: ctrl.localCache })

/-! ## Sample inputs used by witnesses and counterexamples -/

/-- A plain user message in channel chan1 of guild g1, authored by alice. -/
def sampleMsg : Msg :=
  { guildId := some "g1"
    channelId := "chan1"
    content := "bye"
    secondsSinceSent := 0
    sender := some ⟨"u1", "alice", false⟩
    member := some ⟨"u1", "alice", false⟩
    webhookID := none }

/-- A star reaction on sampleMsg. -/
def sampleReaction : Reaction := ⟨"⭐", sampleMsg⟩

/-- A message posted via an external integration: no conventional sender. -/
def sampleHookMsg : Msg :=
  { sampleMsg with sender := none, member := none, webhookID := some "99" }

/-- A message sent exactly 600 seconds (10 minutes) ago. -/
def sampleAgedMsg : Msg := { sampleMsg with secondsSinceSent := 600 }

/-! ## Theorems -/

/-- C1. The any-of evaluator invokes the named predicates strictly in
insertion order; it stops at the first predicate whose result is truthy (a
non-empty string or boolean true) and returns the (name, result) pair of that step
pair, invoking no later predicate (the instrumented call list ends at that
step); when every predicate is falsy it returns nothing. -/
theorem calledAnyOf_first_truthy {T : Type} :
    (∀ (l₁ : List (String × (T → RVal))) (name : String) (f : T → RVal)
        (l₂ : List (String × (T → RVal))) (t : T),
      (∀ p ∈ l₁, (p.2 t).truthy = false) → (f t).truthy = true →
        calledAnyOf (l₁ ++ (name, f) :: l₂) none t = some (name, f t) ∧
        calledAnyOfCalls (l₁ ++ (name, f) :: l₂) none t =
          l₁.map Prod.fst ++ [name]) ∧
    (∀ (fs : List (String × (T → RVal))) (t : T),
      (∀ p ∈ fs, (p.2 t).truthy = false) →
        calledAnyOf fs none t = none ∧
        calledAnyOfCalls fs none t = fs.map Prod.fst) := by
  constructor
  · intro l₁ name f l₂ t h₁ hf
    induction l₁ with
    | nil => simp [calledAnyOf, calledAnyOfCalls, hf]
    | cons p l ih =>
      obtain ⟨pn, pf⟩ := p
      have hp : (pf t).truthy = false := h₁ ⟨pn, pf⟩ (by simp)
      have hrest := ih fun q hq => h₁ q (List.mem_cons_of_mem _ hq)
      simp [calledAnyOf, calledAnyOfCalls, hp, hrest.1, hrest.2]
  · intro fs t h
    induction fs with
    | nil => simp [calledAnyOf, calledAnyOfCalls]
    | cons p l ih =>
      obtain ⟨pn, pf⟩ := p
      have hp : (pf t).truthy = false := h ⟨pn, pf⟩ (by simp)
      have hrest := ih fun q hq => h q (List.mem_cons_of_mem _ hq)
      simp [calledAnyOf, calledAnyOfCalls, hp, hrest.1, hrest.2]

/-- C1 witness: with three steps whose first is positive, the evaluator
returns the first step and only the first step is invoked. -/
theorem calledAnyOf_first_truthy_witness :
    calledAnyOf
      [("S1", fun _ => RVal.bool true), ("S2", fun _ => RVal.str "x"),
       ("S3", fun _ => RVal.bool true)] none (0 : ℕ) =
      some ("S1", RVal.bool true) ∧
    calledAnyOfCalls
      [("S1", fun _ => RVal.bool true), ("S2", fun _ => RVal.str "x"),
       ("S3", fun _ => RVal.bool true)] none (0 : ℕ) = ["S1"] := by
  have h := (calledAnyOf_first_truthy (T := ℕ)).1 []
    "S1" (fun _ => RVal.bool true)
    [("S2", fun _ => RVal.str "x"), ("S3", fun _ => RVal.bool true)] 0
    (by intro p hp; simp at hp) rfl
  simpa using h

/-- C4. The literal-username starrer rule is broken in the code: the slice
uses the length of "$username" instead of "$username:", keeping the leading
colon, so a rule $username:alice never blocks the user whose display handle
is alice — it blocks the user whose handle is ":alice" instead. -/
theorem starredBy_username_literal_slice :
    _starredBy (fun _ _ => false) ⟨"u1", "alice", false⟩ ["$username:alice"]
      = false ∧
    _starredBy (fun _ _ => false) ⟨"u2", ":alice", false⟩ ["$username:alice"]
      = true := by
  constructor <;> decide

/-- C6. The conjunction over the present fields of a rule is broken for the
content field: the source calls the async _contentMatch without awaiting it,
so the guard tests a Promise object (always truthy) and a rule whose content
condition fails still fires. Here the rule demands content equal to "hello",
the message text is "bye", the matcher itself answers false, yet the rule
disqualifies the message. -/
theorem isDisqualified_content_not_awaited :
    _contentMatch "bye" (ContentPos.equal, "hello") = false ∧
    _isDisqualified sampleReaction
      { content := some (ContentPos.equal, "hello") } = true := by
  constructor <;> decide

/-- Helper: the loop of _handleDisqualify yields the `reason || true` value
of the first matching rule, skipping the non-matching prefix. -/
theorem handleDisqualifyLoop_append (reaction : Reaction)
    (l₁ l₂ : List IMessageDisqualification) (r : IMessageDisqualification)
    (h₁ : ∀ q ∈ l₁, _isDisqualified reaction q = false)
    (hr : _isDisqualified reaction r = true) :
    _handleDisqualifyLoop reaction (l₁ ++ r :: l₂) = reasonOrTrue r.reason := by
  induction l₁ with
  | nil => simp [_handleDisqualifyLoop, hr]
  | cons q l ih =>
    have hq := h₁ q (by simp)
    simp only [List.cons_append, _handleDisqualifyLoop, hq, Bool.false_eq_true,
      if_false]
    exact ih fun p hp => h₁ p (List.mem_cons_of_mem _ hp)

/-- C2 counterexample: the claim promises the configured reason
string of the first matching rule, but for a matching rule whose configured reason is
the empty string the code returns the boolean flag true (the JavaScript
expression `reason || true` treats the empty string as falsy), not the
configured string. -/
theorem handleDisqualify_empty_reason_cex :
    _isDisqualified sampleReaction { reason := some "" } = true ∧
    _handleDisqualify
        { guildId := "g1", badStars := some [{ reason := some "" }] }
        ⟨sampleReaction, ⟨"u9", "bob", false⟩⟩ = RVal.bool true ∧
    RVal.bool true ≠ RVal.str "" := by
  refine ⟨by decide, by decide, by decide⟩

/-- C2 (amended). The bad-star check evaluates the configured rules in order
and returns, for the FIRST matching rule, its reason when that reason is a
non-empty string and the literal flag true when the rule has no reason
configured or its configured reason is the empty string; later rules do not
contribute, and with two rules where only the second matches the detail
comes from the second rule. -/
theorem handleDisqualify_first_match (reaction : Reaction) (user : Sender)
    (settings : IStarControlSettings)
    (l₁ l₂ : List IMessageDisqualification) (r : IMessageDisqualification)
    (hb : settings.badStars = some (l₁ ++ r :: l₂))
    (h₁ : ∀ q ∈ l₁, _isDisqualified reaction q = false)
    (hr : _isDisqualified reaction r = true) :
    _handleDisqualify settings ⟨reaction, user⟩ = reasonOrTrue r.reason := by
  simp only [_handleDisqualify, hb]
  exact handleDisqualifyLoop_append reaction l₁ l₂ r h₁ hr

/-- C2 witness: with two rules where only the second matches, the detail is
the reason of the second rule. -/
theorem handleDisqualify_first_match_witness :
    _handleDisqualify
        { guildId := "g1",
          badStars := some [{ channels := some ["other"], reason := some "first" },
                            { reason := some "second" }] }
        ⟨sampleReaction, ⟨"u9", "bob", false⟩⟩ = RVal.str "second" := by
  have h := handleDisqualify_first_match sampleReaction ⟨"u9", "bob", false⟩
    { guildId := "g1",
      badStars := some [{ channels := some ["other"], reason := some "first" },
                        { reason := some "second" }] }
    [{ channels := some ["other"], reason := some "first" }] []
    { reason := some "second" } rfl
    (by intro q hq; simp at hq; subst hq; decide) (by decide)
  exact h.trans (by decide)

/-- Helper: the body of one iteration of the _authoredBy loop, i.e. whether a
single authors entry matches the message. -/
def authorEntryMatch (msg : Msg) (author : String) : Bool :=
  if author = "$bots" then
    (match msg.sender with
     | some s => s.bot
     | none => false)
  else if author = "$hooks" then
    (match msg.webhookID with
     | some w => w ≠ ""
     | none => false)
  else if strStartsWith author "$hook:" then
    msg.webhookID == some (strSlice author "$hook:".length)
  else
    (match msg.sender with
     | some s => s.id == author
     | none => false)

/-- Helper: _authoredBy is the disjunction of the per-entry matches. -/
theorem authoredBy_eq_any (msg : Msg) (authors : List String) :
    _authoredBy msg authors = authors.any (authorEntryMatch msg) := by
  induction authors with
  | nil => rfl
  | cons a rest ih =>
    by_cases h1 : a = "$bots"
    · simp [_authoredBy, authorEntryMatch, h1, ih]
    · by_cases h2 : a = "$hooks"
      · simp [_authoredBy, authorEntryMatch, h1, h2, ih]
      · by_cases h3 : strStartsWith a "$hook:"
        · simp [_authoredBy, authorEntryMatch, h1, h2, h3, ih]
        · simp [_authoredBy, authorEntryMatch, h1, h2, h3, ih]

/-- Helper: with no conventional sender (webhook-style message) only the two
integration-specific entry shapes can match. -/
theorem authorEntryMatch_no_sender (msg : Msg) (w : String)
    (hs : msg.sender = none) (hw : msg.webhookID = some w) (a : String) :
    authorEntryMatch msg a = true ↔
      (a = "$hooks" ∧ w ≠ "") ∨
      (strStartsWith a "$hook:" = true ∧ strSlice a "$hook:".length = w) := by
  by_cases h1 : a = "$bots"
  · subst h1
    simp [authorEntryMatch, hs, show ("$bots" : String) ≠ "$hooks" by decide,
      show strStartsWith "$bots" "$hook:" = false by decide]
  · by_cases h2 : a = "$hooks"
    · subst h2
      simp [authorEntryMatch, hw, show ("$hooks" : String) ≠ "$bots" by decide,
        show strStartsWith "$hooks" "$hook:" = false by decide]
    · by_cases h3 : strStartsWith a "$hook:"
      · simp only [authorEntryMatch, h1, h2, h3, hw, if_false, if_true,
          eq_self_iff_true, Option.some.injEq, beq_iff_eq, true_and,
          false_and, false_or]
        exact eq_comm
      · simp [authorEntryMatch, h1, h2, h3, hs]

/-- C3. A message posted via an external integration (no conventional sender
account) is matched by _authoredBy exactly against the integration-specific
entries: it matches iff the authors list holds the entry $hooks (and the
integration identifier is non-empty, per the truthiness test of the source)
or an entry of shape $hook:ID whose ID equals the integration
identifier of the message; in particular a literal-account-identifier entry never matches
such a message. -/
theorem authoredBy_webhook_integration_only (msg : Msg)
    (authors : List String) (w : String)
    (hs : msg.sender = none) (hw : msg.webhookID = some w) :
    _authoredBy msg authors = true ↔
      ∃ e ∈ authors,
        (e = "$hooks" ∧ w ≠ "") ∨
        (strStartsWith e "$hook:" = true ∧ strSlice e "$hook:".length = w) := by
  rw [authoredBy_eq_any, List.any_eq_true]
  constructor
  · rintro ⟨e, he, hm⟩
    exact ⟨e, he, (authorEntryMatch_no_sender msg w hs hw e).mp hm⟩
  · rintro ⟨e, he, hm⟩
    exact ⟨e, he, (authorEntryMatch_no_sender msg w hs hw e).mpr hm⟩

/-- C3 witness: on a webhook message, the matching $hook:99 entry matches
while the literal account identifier entries (even the hook id written as a
literal entry) do not. -/
theorem authoredBy_webhook_integration_only_witness :
    _authoredBy sampleHookMsg ["u1", "$bots", "$hook:99"] = true ∧
    _authoredBy sampleHookMsg ["u1", "$bots", "99"] = false := by
  constructor
  · exact (authoredBy_webhook_integration_only sampleHookMsg
      ["u1", "$bots", "$hook:99"] "99" rfl rfl).mpr
      ⟨"$hook:99", by simp, Or.inr ⟨by decide, by decide⟩⟩
  · have h := authoredBy_webhook_integration_only sampleHookMsg
      ["u1", "$bots", "99"] "99" rfl rfl
    cases hb : _authoredBy sampleHookMsg ["u1", "$bots", "99"] with
    | false => rfl
    | true =>
      obtain ⟨e, he, hP⟩ := h.mp hb
      simp at he
      rcases he with rfl | rfl | rfl
      · rcases hP with ⟨h3, _⟩ | ⟨h3, _⟩ <;> revert h3 <;> decide
      · rcases hP with ⟨h3, _⟩ | ⟨h3, _⟩ <;> revert h3 <;> decide
      · rcases hP with ⟨h3, _⟩ | ⟨h3, _⟩ <;> revert h3 <;> decide

/-- C5. For a rule with an aged field the age condition is a
greater-or-equal comparison on the message age in minutes: a message
strictly younger than aged minutes is never disqualified by the rule, while
a message at least aged minutes old (in particular exactly aged minutes old)
is disqualified whenever the other present fields of the rule hold. -/
theorem isDisqualified_age_threshold (reaction : Reaction)
    (disqual : IMessageDisqualification) (aged : ℚ)
    (ha : disqual.aged = some aged) :
    (_minutesSinceSent reaction.message < aged →
      _isDisqualified reaction disqual = false) ∧
    (aged ≤ _minutesSinceSent reaction.message →
      (∀ channels, disqual.channels = some channels →
        channels.contains reaction.message.channelId = true) →
      (∀ authors, disqual.authors = some authors →
        _authoredBy reaction.message authors = true) →
      (∀ cond, disqual.content = some cond →
        _contentMatch reaction.message.content cond = true) →
      _isDisqualified reaction disqual = true) := by
  constructor
  · intro hlt
    simp [_isDisqualified, ha, hlt]
  · intro hge hch hau _hco
    have h1 : ¬(_minutesSinceSent reaction.message < aged) := not_lt.mpr hge
    cases hc : disqual.channels with
    | none =>
      cases ha2 : disqual.authors with
      | none => simp [_isDisqualified, ha, h1, hc, ha2]
      | some as => simp [_isDisqualified, ha, h1, hc, ha2, hau as ha2]
    | some cs =>
      have hcs : reaction.message.channelId ∈ cs := by simpa using hch cs hc
      cases ha2 : disqual.authors with
      | none => simp [_isDisqualified, ha, h1, hc, ha2, hcs]
      | some as => simp [_isDisqualified, ha, h1, hc, ha2, hcs, hau as ha2]

/-- C5 witness: with a ten minute threshold, a message sent exactly 600
seconds ago is disqualified (its channel condition holds), one sent 599
seconds ago is not. -/
theorem isDisqualified_age_threshold_witness :
    _isDisqualified ⟨"⭐", sampleAgedMsg⟩
      { aged := some 10, channels := some ["chan1"] } = true ∧
    _isDisqualified ⟨"⭐", { sampleAgedMsg with secondsSinceSent := 599 }⟩
      { aged := some 10, channels := some ["chan1"] } = false := by
  constructor
  · exact (isDisqualified_age_threshold ⟨"⭐", sampleAgedMsg⟩
      { aged := some 10, channels := some ["chan1"] } 10 rfl).2
      (by norm_num [_minutesSinceSent, sampleAgedMsg, sampleMsg])
      (by intro cs hcs; simp at hcs; subst hcs; decide)
      (by intro as has; simp at has)
      (by intro c hc; simp at hc)
  · exact (isDisqualified_age_threshold
      ⟨"⭐", { sampleAgedMsg with secondsSinceSent := 599 }⟩
      { aged := some 10, channels := some ["chan1"] } 10 rfl).1
      (by norm_num [_minutesSinceSent, sampleAgedMsg, sampleMsg])

/-- C7. The step names of the compiled pipeline always form a subsequence of
[USER-BLOCK, FILTER, SELF-STAR] (so the order is fixed), a step is included
exactly when its configuration section is present (the selfStarring flag
true), and with self-starring disabled the SELF-STAR step is absent from the
pipeline altogether. -/
theorem disqualificationSteps_ordered (test : String → String → Bool)
    (settings : IStarControlSettings) :
    ((disqualificationSteps test settings).map Prod.fst).Sublist
        ["USER-BLOCK", "FILTER", "SELF-STAR"] ∧
    ("USER-BLOCK" ∈ (disqualificationSteps test settings).map Prod.fst ↔
      settings.blockedStarrers.isSome = true) ∧
    ("FILTER" ∈ (disqualificationSteps test settings).map Prod.fst ↔
      settings.badStars.isSome = true) ∧
    ("SELF-STAR" ∈ (disqualificationSteps test settings).map Prod.fst ↔
      settings.selfStarring = true) ∧
    (settings.selfStarring = false →
      "SELF-STAR" ∉ (disqualificationSteps test settings).map Prod.fst) := by
  obtain ⟨gid, bad, self, emoji, blocked⟩ := settings
  cases blocked <;> cases bad <;> cases self <;>
    refine ⟨by simp [disqualificationSteps]; try decide, ?_, ?_, ?_, ?_⟩ <;>
    simp [disqualificationSteps]

/-- C7 witness: with self-starring disabled the SELF-STAR step is absent even
when the other sections are present. -/
theorem disqualificationSteps_ordered_witness :
    "SELF-STAR" ∉ (disqualificationSteps (fun _ _ => false)
      { guildId := "g1", selfStarring := false,
        blockedStarrers := some ["$bots"],
        badStars := some [{ aged := some 1440 }] }).map Prod.fst :=
  (disqualificationSteps_ordered (fun _ _ => false)
    { guildId := "g1", selfStarring := false,
      blockedStarrers := some ["$bots"],
      badStars := some [{ aged := some 1440 }] }).2.2.2.2 rfl

/-- C8. The regex cache memoizes: after a first compilation of a source
string, a second request for the same string returns the very object stored
by the first (equal identity serial — no recompilation) and leaves the cache
unchanged; and the cache never evicts: every entry present before a request
is still present, unchanged, afterwards. -/
theorem regExp_memoized (str : String) (c0 : RegexCacheState) :
    (regExp str (regExp str c0).2).1 = (regExp str c0).1 ∧
    (regExp str (regExp str c0).2).2 = (regExp str c0).2 ∧
    ((regExp str c0).2).lookup str = some (regExp str c0).1 ∧
    (∀ s p, c0.lookup s = some p → ((regExp str c0).2).lookup s = some p) := by
  cases h : c0.lookup str with
  | some cached =>
    refine ⟨?_, ?_, ?_, ?_⟩ <;> simp [regExp, h]
  | none =>
    have hcons : ∀ x : RegExpObj,
        (RegexCacheState.mk ((str, x) :: c0.entries) (c0.nextId + 1)).lookup str
          = some x := by
      intro x
      simp [RegexCacheState.lookup, List.lookup]
    refine ⟨?_, ?_, ?_, ?_⟩
    · simp [regExp, h, hcons ⟨str, c0.nextId⟩]
    · simp [regExp, h, hcons ⟨str, c0.nextId⟩]
    · simp [regExp, h, hcons ⟨str, c0.nextId⟩]
    · intro s p hsp
      have h2 : List.lookup str c0.entries = none := h
      have hsp2 : List.lookup s c0.entries = some p := hsp
      have hne : ¬(s = str) := by
        intro heq
        subst heq
        exact Option.noConfusion (h2.symm.trans hsp2)
      have hbeq : (s == str) = false := beq_eq_false_iff_ne.mpr hne
      simp only [regExp, RegexCacheState.lookup, h2, List.lookup, hbeq]
      exact hsp2

/-- C8 witness: compiling a+ twice over a cache already holding an entry for
b returns the identical stored object the second time and keeps the old
entry. -/
theorem regExp_memoized_witness :
    (regExp "a+" (regExp "a+" ⟨[("b", ⟨"b", 0⟩)], 1⟩).2).1 =
      (regExp "a+" ⟨[("b", ⟨"b", 0⟩)], 1⟩).1 ∧
    (regExp "a+" (regExp "a+" ⟨[("b", ⟨"b", 0⟩)], 1⟩).2).2 =
      (regExp "a+" ⟨[("b", ⟨"b", 0⟩)], 1⟩).2 ∧
    ((regExp "a+" ⟨[("b", ⟨"b", 0⟩)], 1⟩).2).lookup "b" = some ⟨"b", 0⟩ := by
  have h := regExp_memoized "a+" ⟨[("b", ⟨"b", 0⟩)], 1⟩
  exact ⟨h.1, h.2.1, h.2.2.2 "b" ⟨"b", 0⟩ (by decide)⟩

/-- C9. When the evaluator of the entry point rejects a reaction (the event passed
the guild and emoji filters and the compiled process returned a step), the
handler logs, retracts the reaction, and only then attempts the warning; a
delivery failure is caught, merely logged, and the handler still completes
normally returning true — the retraction already performed stays in the
trace whatever the delivery outcome. -/
theorem handleReactionAdding_rejection (settings : IStarControlSettings)
    (p : IAddedReaction → Option (String × RVal)) (sendOk : Bool)
    (reaction : Reaction) (user : Sender) (autoReason : String) (reason : RVal)
    (hg : reaction.message.guildId = some settings.guildId)
    (he : reaction.emojiName = settings.starEmoji)
    (hp : p ⟨reaction, user⟩ = some (autoReason, reason)) :
    _handleReactionAdding settings (some p) sendOk reaction user =
      ([Action.logDisallow autoReason, Action.removeReaction] ++
        (if sendOk then
          match reason with
          | RVal.str r => [Action.sentReasonedWarning autoReason r]
          | RVal.bool _ => [Action.sentWarning autoReason]
         else [Action.loggedWarnFailure]), true) := by
  cases sendOk <;> cases reason <;>
    simp [_handleReactionAdding, hg, he, hp, trySendWarning]

/-- C9 witness: a rejected star reaction with failing warning delivery still
produces the retraction followed by the logged failure, and the handler
returns true. -/
theorem handleReactionAdding_rejection_witness :
    _handleReactionAdding { guildId := "g1" }
      (some fun _ => some ("FILTER", RVal.bool true)) false
      sampleReaction ⟨"u9", "bob", false⟩ =
      ([Action.logDisallow "FILTER", Action.removeReaction,
        Action.loggedWarnFailure], true) := by
  have h := handleReactionAdding_rejection { guildId := "g1" }
    (fun _ => some ("FILTER", RVal.bool true)) false
    sampleReaction ⟨"u9", "bob", false⟩ "FILTER" (RVal.bool true)
    rfl rfl rfl
  simpa using h

/-- C10. getRecord hands back a record only on a local-cache hit: with the
cache bypassed (useCache false) or on a cache miss the call returns no
record even when the database query finds one; the fetched row is only
stored into the local cache, where a later cache-using call observes it. -/
theorem getRecord_cache_only (ctrl : HouseRolesDBController) (member : Member)
    (r : HouseRecord) (hinit : ctrl.initComplete = true) :
    (∀ res ctrl2, getRecord ctrl member false = Except.ok (res, ctrl2) →
      res = none) ∧
    (ctrl.localCache.lookup (getLocalKey member) = none →
      ∀ res ctrl2, getRecord ctrl member true = Except.ok (res, ctrl2) →
        res = none) ∧
    (dbFirst ctrl.db member = some r →
      getRecord ctrl member false =
        Except.ok (none, { ctrl with
          localCache := (getLocalKey member, r) :: ctrl.localCache }) ∧
      ({ ctrl with localCache :=
          (getLocalKey member, r) :: ctrl.localCache
        }).localCache.lookup (getLocalKey member) = some r ∧
      getRecord { ctrl with
          localCache := (getLocalKey member, r) :: ctrl.localCache }
        member true =
        Except.ok (some r, { ctrl with
          localCache := (getLocalKey member, r) :: ctrl.localCache })) := by
  refine ⟨?_, ?_, ?_⟩
  · intro res ctrl2 hres
    cases hdb : dbFirst ctrl.db member <;>
      simp [getRecord, hinit, hdb] at hres <;> exact hres.1.symm
  · intro hlk res ctrl2 hres
    cases hdb : dbFirst ctrl.db member <;>
      simp [getRecord, hinit, hlk, hdb] at hres <;> exact hres.1.symm
  · intro hdb
    refine ⟨?_, ?_, ?_⟩
    · simp [getRecord, hinit, hdb]
    · simp [List.lookup]
    · simp [getRecord, hinit, List.lookup]

/-- C10 witness: on a fresh cache with one database row, a cache-bypassing
read returns no record but stores the row, and a later cache-using read
returns it. -/
theorem getRecord_cache_only_witness :
    getRecord ⟨[], [⟨"g", "m", 1, 2⟩], true⟩ ⟨"g", "m"⟩ false =
      Except.ok (none, ⟨[("g:m", ⟨"g", "m", 1, 2⟩)], [⟨"g", "m", 1, 2⟩], true⟩) ∧
    getRecord ⟨[("g:m", ⟨"g", "m", 1, 2⟩)], [⟨"g", "m", 1, 2⟩], true⟩
        ⟨"g", "m"⟩ true =
      Except.ok (some ⟨"g", "m", 1, 2⟩,
        ⟨[("g:m", ⟨"g", "m", 1, 2⟩)], [⟨"g", "m", 1, 2⟩], true⟩) := by
  have h := (getRecord_cache_only ⟨[], [⟨"g", "m", 1, 2⟩], true⟩ ⟨"g", "m"⟩
    ⟨"g", "m", 1, 2⟩ rfl).2.2 (by decide)
  exact ⟨h.1, h.2.2⟩

end DnServ
